import Mathlib

set_option maxHeartbeats 1000000

/-!
Shallow embedding of the OIDC session-coordination core of
`src/server/auth/server/oidc.go`: the session record (`auth.SessionInfo`),
the transactional mutator of `handleOIDCExchange`, the watch/backoff loop of
`OIDCStateToEmail`, the HTTP-response and log emission of the callback
handler, and `CryptoString`.
-/

/-- Session record stored in etcd under the OIDC state token.
Mirrors `auth.SessionInfo`: `Nonce`, `AccessToken`, `ConversionErr`. -/
structure SessionInfo where
  nonce : String
  accessToken : String
  conversionErr : Bool
deriving DecidableEq, Repr

/-- The three states of a session record (spec §3). -/
inductive SessionOutcome where
  | pending
  | succeeded
  | failed
deriving DecidableEq, Repr

/-- Outcome classification implicit in the watch loop of `OIDCStateToEmail`
(oidc.go 213-218): `AccessToken` is inspected first, then `ConversionErr`. -/
def classify (si : SessionInfo) : SessionOutcome :=
  if si.accessToken ≠ "" then .succeeded
  else if si.conversionErr then .failed
  else .pending

/-- The mutator passed to `sp.States.ReadWrite(stm).Update` in
`handleOIDCExchange` (oidc.go 304-319): the nonce is compared inside the
transaction; on a mismatch `conversionErr` is set as if the exchange had
failed; then either the access token is written or `ConversionErr` is set.
Returns the updated record together with the (possibly updated) captured
`conversionErr` variable. -/
def exchangeMutator (nonce accessToken : String) (conversionErr : Option String)
    (si : SessionInfo) : SessionInfo × Option String :=
  let conversionErr :=
    if conversionErr = none ∧ nonce ≠ si.nonce then
      some ("IDP nonce " ++ nonce ++ " did not match Pachyderm session nonce " ++ si.nonce)
    else conversionErr
  if conversionErr = none then
    ({ si with accessToken := accessToken }, conversionErr)
  else
    ({ si with conversionErr := true }, conversionErr)

/-- Events delivered by the etcd watch on one OIDC state key, as consumed by
the loop in `OIDCStateToEmail` (oidc.go 199-220). -/
inductive WatchEvent where
  | errEvent
  | deleteEvent
  | update (si : SessionInfo)
  | updateBad
deriving DecidableEq, Repr

/-- Errors produced by one iteration of the watch body of `OIDCStateToEmail`:
`watchFailed`, `tokenDeleted` and `authFailed` are the sentinel errors of
oidc.go 30-34; `eventErr` stands for `e.Err` of an error event and
`unmarshalErr` for the wrapped unmarshalling error. -/
inductive ResolveErr where
  | watchFailed
  | tokenDeleted
  | authFailed
  | eventErr
  | unmarshalErr
deriving DecidableEq, Repr

/-- One attempt of the retry body: either `WatchOne` fails to establish the
watch, or it yields a stream of events (the stream ending models the watch
channel closing). -/
inductive WatchAttempt where
  | estFail
  | events (evs : List WatchEvent)
deriving DecidableEq, Repr

/-- The `for e := range watcher.Watch()` loop (oidc.go 199-221): an error
event returns `e.Err` (to re-establish the watch), a delete event returns
`tokenDeleted`, a record with an access token returns success, a record with
`ConversionErr` returns `authFailed`, a still-pending record is skipped, and
if the channel closes the body returns nil with `accessToken` still `""`. -/
def runEvents : List WatchEvent → Except ResolveErr String
  | [] => .ok ""
  | .errEvent :: _ => .error .eventErr
  | .deleteEvent :: _ => .error .tokenDeleted
  | .updateBad :: _ => .error .unmarshalErr
  | .update si :: rest =>
    if si.accessToken ≠ "" then .ok si.accessToken
    else if si.conversionErr then .error .authFailed
    else runEvents rest

/-- One execution of the retry body (oidc.go 189-221): a failure of
`WatchOne` returns the `watchFailed` sentinel, otherwise the event stream is
consumed. -/
def runAttempt : WatchAttempt → Except ResolveErr String
  | .estFail => .error .watchFailed
  | .events evs => runEvents evs

/-- The notify callback of `backoff.RetryNotify` (oidc.go 222-228): it stops
the retry loop (by returning the error) exactly for the three sentinel errors
`watchFailed`, `tokenDeleted`, `authFailed`, and lets any other error be
retried. -/
def stopsRetry (e : ResolveErr) : Bool :=
  match e with
  | .watchFailed => true
  | .tokenDeleted => true
  | .authFailed => true
  | _ => false

/-- Modelled from the spec: `backoff.RetryNotify` with `backoff.New60sBackOff`
(package `src/server/pkg/backoff`, not under src/). The operation is retried
with bounded backoff; when the notify callback returns the error the loop
stops and returns it; when the overall backoff budget (modelled as `fuel`
remaining retries) is exhausted the last error is returned; otherwise the
loop sleeps and runs the operation again. Each list element supplies the
environment's behaviour for one attempt; an exhausted environment stands for
a watch that can never again be established. -/
def retryLoop : List WatchAttempt → Nat → Except ResolveErr String
  | [], _ => .error .watchFailed
  | a :: rest, fuel =>
    match runAttempt a with
    | .ok tok => .ok tok
    | .error e =>
      if stopsRetry e then .error e
      else
        match fuel with
        | 0 => .error e
        | fuel + 1 => retryLoop rest fuel

/-- Result of `OIDCStateToEmail`: either a resolve error from the watch/backoff
layer or an error from the final `Provider.UserInfo` call. -/
inductive ResolveFinalErr where
  | watch (e : ResolveErr)
  | identity (msg : String)
deriving DecidableEq, Repr

/-- The tail of `OIDCStateToEmail` (oidc.go 233-244): the access token
obtained from the watch loop is used as a static token source for the
`UserInfo` fetch, whose failure is surfaced as-is. -/
def finishIdentity (userInfo : String → Except String String) (accessToken : String) :
    Except ResolveFinalErr String :=
  match userInfo accessToken with
  | .error m => .error (.identity m)
  | .ok email => .ok email

/-- `OIDCStateToEmail` (oidc.go 182-245): the watch/backoff loop followed by
the identity-attribute fetch. `attempts` is the environment's behaviour for
each successive watch attempt and `userInfo` the external `UserInfo`
capability. -/
def oidcStateToEmail (attempts : List WatchAttempt) (fuel : Nat)
    (userInfo : String → Except String String) : Except ResolveFinalErr String :=
  match retryLoop attempts fuel with
  | .error e => .error (.watch e)
  | .ok tok => finishIdentity userInfo tok

/-- HTTP responses the callback endpoint can write (oidc.go 285, 291-294,
326-337): the `409` not-configured error, the `400` bad-request error, the
generic `401` authorization failure and `500` temporary error (both carrying
only the state token), and the generic success body. -/
inductive HttpResponse where
  | conflictResp
  | badRequestResp
  | unauthorized (state : String)
  | internalError (state : String)
  | successResp
deriving DecidableEq, Repr

/-- Log lines written on the callback path, with exactly the arguments the
corresponding `logrus` calls take in the source: the entry log of
`handleOIDCExchangeInternal` takes the state (oidc.go 357), its deferred exit
log takes state and nonce (oidc.go 359-360), and `handleOIDCExchange` logs
state plus the conversion error (oidc.go 342-343) and state plus the etcd
error (oidc.go 346-347). Neither the authorization code nor the access token
is an argument of any of them. -/
inductive LogLine where
  | infoEnter (state : String)
  | infoExit (state nonce : String)
  | convErrLog (state err : String)
  | etcdErrLog (state err : String)
deriving DecidableEq, Repr

/-- `handleOIDCExchangeInternal` (oidc.go 355-389): the code exchange,
id-token extraction and verification are the external OIDC capability,
modelled as an oracle from the authorization code to either an error or the
pair (assertion nonce, access token). On the error paths the named returns
are zeroed, so the deferred log reports an empty nonce. Returns
`(nonce, accessToken, retErr)` together with the log lines written. -/
def handleOIDCExchangeInternal (exchange : String → Except String (String × String))
    (authCode state : String) : (String × String × Option String) × List LogLine :=
  match exchange authCode with
  | .error e => (("", "", some e), [.infoEnter state, .infoExit state ""])
  | .ok (nonce, accessToken) =>
    ((nonce, accessToken, none), [.infoEnter state, .infoExit state nonce])

/-- Behaviour of the etcd transaction around the mutator: it commits, or the
store is unavailable (`col.NewSTM` returns an error without the mutator's
write taking effect). -/
inductive StoreFault where
  | ok
  | unavailable
deriving DecidableEq, Repr

/-- The `col.NewSTM` transaction of `handleOIDCExchange` (oidc.go 302-320):
`Update` reads the record for the state key into `si` (failing if it is
absent), applies the mutator and writes the result back. Returns the new
store contents for the key, the etcd error if any, and the captured
`conversionErr` variable after the transaction. -/
def stmUpdate (fault : StoreFault) (st : Option SessionInfo)
    (nonce accessToken : String) (conversionErr : Option String) :
    Option SessionInfo × Option String × Option String :=
  match fault with
  | .unavailable => (st, some "etcd is unavailable", conversionErr)
  | .ok =>
    match st with
    | none => (none, some "key not found", conversionErr)
    | some si =>
      let (si2, conversionErr2) := exchangeMutator nonce accessToken conversionErr si
      (some si2, none, conversionErr2)

/-- The response-and-log tail of `handleOIDCExchange` (oidc.go 321-348),
given the exchange-internal outcome and the store behaviour: exactly one
`http.Error`/`fmt.Fprintf` call is made (the switch at 323-338), after which
each of the two errors that is set is logged (the two ifs at 341-348).
Returns the store contents after the transaction, the list of responses
written, and the log lines of the whole exchange stage. -/
def exchangeStage (exchange : String → Except String (String × String))
    (fault : StoreFault) (authCode state : String) (st : Option SessionInfo) :
    Option SessionInfo × List HttpResponse × List LogLine :=
  let out := handleOIDCExchangeInternal exchange authCode state
  let nonce := out.1.1
  let accessToken := out.1.2.1
  let conversionErr := out.1.2.2
  let res := stmUpdate fault st nonce accessToken conversionErr
  let st2 := res.1
  let etcdErr := res.2.1
  let conversionErr2 := res.2.2
  let resp : HttpResponse :=
    match conversionErr2 with
    | some _ => .unauthorized state
    | none =>
      match etcdErr with
      | some _ => .internalError state
      | none => .successResp
  let errLogs :=
    (match conversionErr2 with
     | some e => [LogLine.convErrLog state e]
     | none => []) ++
    (match etcdErr with
     | some e => [LogLine.etcdErrLog state e]
     | none => [])
  (st2, [resp], out.2 ++ errLogs)

/-- How the prelude of `handleOIDCExchange` (oidc.go 281-295) terminates:
`conflict` when no provider is configured (409), `panicked` when indexing
`Query()["code"][0]` or `Query()["state"][0]` on an absent parameter panics,
`badRequest` (400) when a parameter is present but empty, and `proceed` when
both are non-empty. -/
inductive PreludeOutcome where
  | conflict
  | panicked
  | badRequest
  | proceed (code state : String)
deriving DecidableEq, Repr

/-- `req.URL.Query()[key]`: the list of values of a query parameter, in
order. -/
def queryGet (params : List (String × String)) (key : String) : List String :=
  (params.filter (fun p => p.1 = key)).map (fun p => p.2)

/-- The prelude of `handleOIDCExchange` (oidc.go 281-295): the 409 check,
then `code := Query()["code"][0]` and `state := Query()["state"][0]` — which
panic with an index-out-of-range error if the parameter is absent — then the
empty-parameter 400 check. -/
def handlePrelude (configured : Bool) (params : List (String × String)) : PreludeOutcome :=
  if ¬configured then .conflict
  else
    match (queryGet params "code").head? with
    | none => .panicked
    | some code =>
      match (queryGet params "state").head? with
      | none => .panicked
      | some state =>
        if state = "" ∨ code = "" then .badRequest
        else .proceed code state

/-- The whole `handleOIDCExchange` endpoint (oidc.go 281-349): the prelude
followed, when it proceeds, by the exchange stage. A panic aborts the
request with no response written and no state touched; the 409 and 400
branches write their response and return before any store access. -/
def handleOIDCExchange (configured : Bool)
    (exchange : String → Except String (String × String)) (fault : StoreFault)
    (params : List (String × String)) (st : Option SessionInfo) :
    Option SessionInfo × List HttpResponse × List LogLine :=
  match handlePrelude configured params with
  | .conflict => (st, [.conflictResp], [])
  | .panicked => (st, [], [])
  | .badRequest => (st, [.badRequestResp], [])
  | .proceed code state => exchangeStage exchange fault code state st

/-- `base64.RawURLEncoding.EncodedLen` from Go's encoding/base64: the length
of the unpadded base64 encoding of `k` bytes. -/
def encodedLen (k : Nat) : Nat := (8 * k + 5) / 6

/-- The byte-count loop of `CryptoString` (oidc.go 89-92):
`for n >= EncodedLen(numBytes) { numBytes++ }`, written with explicit fuel
(the loop leaves `k` once `EncodedLen k` exceeds `n`, which happens by
`k = n + 1`). -/
def numBytesLoop (n k fuel : Nat) : Nat :=
  match fuel with
  | 0 => k
  | fuel + 1 => if encodedLen k ≤ n then numBytesLoop n (k + 1) fuel else k

/-- The number of random bytes `CryptoString n` draws. -/
def numBytesFor (n : Nat) : Nat := numBytesLoop n 0 (n + 2)

/-- The URL-safe base64 alphabet of `base64.RawURLEncoding`. -/
def base64URLAlphabet : List Char :=
  "ABCDEFGHIJKLMNOPQRSTUVWXYZabcdefghijklmnopqrstuvwxyz0123456789-_".toList

/-- Symbol lookup of Go's base64 encoder; every index fed to it below is a
6-bit value, as in the encoder's `& 0x3F` masks. -/
def b64Char (i : Nat) : Char := base64URLAlphabet.getD i 'A'

/-- Go's `base64.RawURLEncoding.EncodeToString` on a byte list: three bytes
are packed into a 24-bit value and emitted as four 6-bit symbols; a final
group of one or two bytes is emitted as two or three symbols, unpadded. -/
def b64EncodeRaw : List Nat → List Char
  | [] => []
  | [b1] =>
    let v := b1 * 65536
    [b64Char (v / 262144 % 64), b64Char (v / 4096 % 64)]
  | [b1, b2] =>
    let v := b1 * 65536 + b2 * 256
    [b64Char (v / 262144 % 64), b64Char (v / 4096 % 64), b64Char (v / 64 % 64)]
  | b1 :: b2 :: b3 :: rest =>
    let v := b1 * 65536 + b2 * 256 + b3
    b64Char (v / 262144 % 64) :: b64Char (v / 4096 % 64) :: b64Char (v / 64 % 64) ::
      b64Char (v % 64) :: b64EncodeRaw rest

/-- `CryptoString` (oidc.go 88-100): computes the byte count, fills that many
bytes from the secure random source (modelled as the function `rand`), and
returns their unpadded URL-safe base64 encoding. -/
def cryptoString (n : Nat) (rand : Nat → Nat) : List Char :=
  b64EncodeRaw ((List.range (numBytesFor n)).map rand)

/-- An encoded length the unpadded base64 of some whole number of bytes can
have. -/
def isAchievableLen (m : Nat) : Prop := ∃ k, encodedLen k = m

/-- `m` is the smallest achievable encoded length that is at least `n` —
the length the spec claims `CryptoString n` returns. -/
def isLeastAchievableGE (n m : Nat) : Prop :=
  isAchievableLen m ∧ n ≤ m ∧ ∀ m2, isAchievableLen m2 → n ≤ m2 → m ≤ m2

/-- `m` is the smallest achievable encoded length that strictly exceeds `n` —
the length `CryptoString n` actually returns. -/
def isLeastAchievableGT (n m : Nat) : Prop :=
  isAchievableLen m ∧ n < m ∧ ∀ m2, isAchievableLen m2 → n < m2 → m ≤ m2

/-- Two exchange outcomes that agree on everything the log sink may see:
equal error (if any) and equal assertion nonce — the access tokens may
differ arbitrarily. -/
def sameVisibleExch : Except String (String × String) → Except String (String × String) → Prop
  | .error e1, .error e2 => e1 = e2
  | .ok (n1, _), .ok (n2, _) => n1 = n2
  | _, _ => False

example : numBytesFor 30 = 23 := by decide
example : encodedLen 23 = 31 := by decide
example : (cryptoString 2 (fun _ => 0)).length = 3 := by decide
example : cryptoString 1 (fun _ => 255) = ['_', 'w'] := by decide

example : runEvents [.update ⟨"n", "t", false⟩] = .ok "t" := by rfl
example : retryLoop [.estFail] 5 = .error .watchFailed := by rfl
example : retryLoop [.events [.errEvent], .events [.update ⟨"n", "t", false⟩]] 5 = .ok "t" := by
  rfl

theorem encodedLen_mono {k m : Nat} (h : k ≤ m) : encodedLen k ≤ encodedLen m := by
  unfold encodedLen
  omega

theorem numBytesLoop_spec (n : Nat) :
    ∀ fuel k, n < encodedLen (k + fuel) → (∀ j, j < k → encodedLen j ≤ n) →
      n < encodedLen (numBytesLoop n k fuel) ∧
        ∀ j, j < numBytesLoop n k fuel → encodedLen j ≤ n := by
  intro fuel
  induction fuel with
  | zero =>
    intro k htop hbelow
    exact ⟨htop, hbelow⟩
  | succ fuel ih =>
    intro k htop hbelow
    by_cases hk : encodedLen k ≤ n
    · have htop2 : n < encodedLen (k + 1 + fuel) := by
        have : k + 1 + fuel = k + (fuel + 1) := by omega
        rw [this]
        exact htop
      have hbelow2 : ∀ j, j < k + 1 → encodedLen j ≤ n := by
        intro j hj
        rcases Nat.lt_or_ge j k with hlt | hge
        · exact hbelow j hlt
        · have : j = k := by omega
          rw [this]
          exact hk
      have := ih (k + 1) htop2 hbelow2
      simpa [numBytesLoop, hk] using this
    · have hstop : numBytesLoop n k (fuel + 1) = k := by
        simp [numBytesLoop, hk]
      rw [hstop]
      exact ⟨by omega, hbelow⟩

theorem numBytesFor_spec (n : Nat) :
    n < encodedLen (numBytesFor n) ∧ ∀ j, j < numBytesFor n → encodedLen j ≤ n := by
  have htop : n < encodedLen (0 + (n + 2)) := by
    unfold encodedLen
    omega
  exact numBytesLoop_spec n (n + 2) 0 htop (by omega)

theorem b64EncodeRaw_length (l : List Nat) :
    (b64EncodeRaw l).length = encodedLen l.length := by
  induction l using b64EncodeRaw.induct with
  | case1 => rfl
  | case2 b1 => simp [b64EncodeRaw, encodedLen]
  | case3 b1 b2 => simp [b64EncodeRaw, encodedLen]
  | case4 b1 b2 b3 rest ih =>
    simp only [b64EncodeRaw, List.length_cons]
    rw [ih]
    unfold encodedLen
    omega

theorem b64Char_mem_all : ∀ i, i < 64 → b64Char i ∈ base64URLAlphabet := by
  decide

theorem b64Char_mem (i : Nat) (h : i < 64) : b64Char i ∈ base64URLAlphabet :=
  b64Char_mem_all i h

theorem b64EncodeRaw_mem (l : List Nat) (c : Char) (hc : c ∈ b64EncodeRaw l) :
    c ∈ base64URLAlphabet := by
  induction l using b64EncodeRaw.induct with
  | case1 => simp [b64EncodeRaw] at hc
  | case2 b1 =>
    simp only [b64EncodeRaw, List.mem_cons, List.not_mem_nil, or_false] at hc
    rcases hc with h | h <;>
      · rw [h]
        exact b64Char_mem _ (Nat.mod_lt _ (by omega))
  | case3 b1 b2 =>
    simp only [b64EncodeRaw, List.mem_cons, List.not_mem_nil, or_false] at hc
    rcases hc with h | h | h <;>
      · rw [h]
        exact b64Char_mem _ (Nat.mod_lt _ (by omega))
  | case4 b1 b2 b3 rest ih =>
    simp only [b64EncodeRaw, List.mem_cons] at hc
    rcases hc with h | h | h | h | h
    · rw [h]; exact b64Char_mem _ (Nat.mod_lt _ (by omega))
    · rw [h]; exact b64Char_mem _ (Nat.mod_lt _ (by omega))
    · rw [h]; exact b64Char_mem _ (Nat.mod_lt _ (by omega))
    · rw [h]; exact b64Char_mem _ (Nat.mod_lt _ (by omega))
    · exact ih h

theorem cryptoString_length (n : Nat) (rand : Nat → Nat) :
    (cryptoString n rand).length = encodedLen (numBytesFor n) := by
  unfold cryptoString
  rw [b64EncodeRaw_length]
  simp

/-- C5 counterexample: at `minLength = 2` the claim says the encoded length
is the smallest achievable length that is at least 2, namely 2 (one random
byte encodes to two symbols); `CryptoString 2` actually draws two bytes and
returns three symbols. -/
theorem C5_counterexample :
    ¬ isLeastAchievableGE 2 (cryptoString 2 (fun _ => 0)).length := by
  intro h
  have hlen : (cryptoString 2 (fun _ => 0)).length = 3 := by decide
  rw [hlen] at h
  have h2 : isAchievableLen 2 := ⟨1, by decide⟩
  have := h.2.2 2 h2 (by omega)
  omega

/-- C5 (amended): for every non-negative `minLength` `n` and every behaviour
of the random source, `CryptoString n` returns a string over the URL-safe
base64 alphabet whose encoded length is the smallest achievable encoded
length strictly greater than `n`. -/
theorem C5_amended (n : Nat) (rand : Nat → Nat) :
    (∀ c, c ∈ cryptoString n rand → c ∈ base64URLAlphabet) ∧
      isLeastAchievableGT n (cryptoString n rand).length := by
  constructor
  · intro c hc
    exact b64EncodeRaw_mem _ c hc
  · rw [cryptoString_length]
    refine ⟨⟨numBytesFor n, rfl⟩, (numBytesFor_spec n).1, ?_⟩
    rintro m2 ⟨k, rfl⟩ hgt
    have hk : numBytesFor n ≤ k := by
      by_contra hlt
      have := (numBytesFor_spec n).2 k (by omega)
      omega
    exact encodedLen_mono hk

/-- Witness for C5 (amended) at `n = 2` with the zero random source. -/
theorem C5_amended_witness :
    ('A' ∈ base64URLAlphabet) ∧ isLeastAchievableGT 2 (cryptoString 2 (fun _ => 0)).length :=
  ⟨(C5_amended 2 (fun _ => 0)).1 'A' (by decide),
   (C5_amended 2 (fun _ => 0)).2⟩

/-- C1 counterexample: a record already in the terminal failed state
(`conversionFailed` set) is overwritten with the success outcome when a
second invocation's exchange succeeds with the matching nonce: the mutator
writes the access token, and the record then classifies as succeeded. -/
theorem C1_counterexample :
    classify ⟨"n", "", true⟩ = .failed ∧
      classify (exchangeMutator "n" "t" none ⟨"n", "", true⟩).1 = .succeeded := by
  decide

/-- C1 (amended): the mutator applied to an already-succeeded record
(access token set) yields a record that still classifies as succeeded —
whatever the second exchange outcome, provided that a successful re-exchange
with a matching nonce carries a non-empty access token. An already-failed
record is not protected: a second successful matching exchange overwrites it
with success. -/
theorem C1_amended (si : SessionInfo) (nonce accessToken : String)
    (conversionErr : Option String) (hterm : classify si = .succeeded)
    (htok : conversionErr = none → nonce = si.nonce → accessToken ≠ "") :
    classify (exchangeMutator nonce accessToken conversionErr si).1 = .succeeded := by
  have ha : si.accessToken ≠ "" := by
    intro h0
    simp [classify, h0] at hterm
    split at hterm <;> simp_all
  cases conversionErr with
  | some e => simp [exchangeMutator, classify, ha]
  | none =>
    by_cases hn : nonce = si.nonce
    · have haccess := htok rfl hn
      simp [exchangeMutator, hn, classify, haccess]
    · simp [exchangeMutator, hn, classify, ha]

/-- Witness for C1 (amended): a succeeded record survives a second successful
exchange. -/
theorem C1_amended_witness :
    classify (exchangeMutator "n" "t2" none ⟨"n", "t1", false⟩).1 = .succeeded :=
  C1_amended ⟨"n", "t1", false⟩ "n" "t2" none (by decide) (fun _ _ => by decide)

/-- C3: when the exchange succeeded but the assertion nonce differs from the
nonce stored in the (still pending) record, the transactional mutator sets
`ConversionErr`, does not write the access token, the record classifies as
failed, and a resolve that observes this record fails with `authFailed`
regardless of remaining backoff budget. -/
theorem C3_nonce_mismatch (si : SessionInfo) (nonce accessToken : String)
    (rest : List WatchAttempt) (fuel : Nat)
    (hpend : si.accessToken = "") (hn : nonce ≠ si.nonce) :
    (exchangeMutator nonce accessToken none si).2 ≠ none ∧
      (exchangeMutator nonce accessToken none si).1.conversionErr = true ∧
      (exchangeMutator nonce accessToken none si).1.accessToken = "" ∧
      classify (exchangeMutator nonce accessToken none si).1 = .failed ∧
      retryLoop (.events [.update (exchangeMutator nonce accessToken none si).1] :: rest)
          fuel = .error .authFailed := by
  have hmut : (exchangeMutator nonce accessToken none si).1 = { si with conversionErr := true } ∧
      (exchangeMutator nonce accessToken none si).2 ≠ none := by
    simp [exchangeMutator, hn]
  refine ⟨hmut.2, ?_, ?_, ?_, ?_⟩
  · rw [hmut.1]
  · rw [hmut.1]
    exact hpend
  · rw [hmut.1]
    simp [classify, hpend]
  · rw [hmut.1]
    simp [retryLoop, runAttempt, runEvents, hpend, stopsRetry]

/-- Witness for C3 at a concrete pending record and mismatching nonce. -/
theorem C3_nonce_mismatch_witness :
    (exchangeMutator "m" "t" none ⟨"n", "", false⟩).2 ≠ none ∧
      (exchangeMutator "m" "t" none ⟨"n", "", false⟩).1.conversionErr = true ∧
      (exchangeMutator "m" "t" none ⟨"n", "", false⟩).1.accessToken = "" ∧
      classify (exchangeMutator "m" "t" none ⟨"n", "", false⟩).1 = .failed ∧
      retryLoop (.events [.update (exchangeMutator "m" "t" none ⟨"n", "", false⟩).1] :: [])
          0 = .error .authFailed :=
  C3_nonce_mismatch ⟨"n", "", false⟩ "m" "t" [] 0 rfl (by decide)

/-- C4 counterexample: a failure to establish the watch is surfaced to the
caller as the `watchFailed` error and is not retried, even though backoff
budget remains and the very next attempt would have succeeded. -/
theorem C4_counterexample :
    retryLoop [.estFail, .events [.update ⟨"n", "t", false⟩]] 5 = .error .watchFailed ∧
      retryLoop [.events [.update ⟨"n", "t", false⟩]] 5 = .ok "t" := by
  constructor <;> rfl

/-- C4 (amended): an error event delivered on an established watch is
transient — the watch is released and the backoff loop moves on to the next
attempt without surfacing the error; but a failure to establish the watch is
classified non-retryable by the notify callback and is surfaced to the
caller as `watchFailed`. -/
theorem C4_amended (rest : List WatchAttempt) (fuel : Nat) (evs : List WatchEvent) :
    retryLoop (.events (.errEvent :: evs) :: rest) (fuel + 1) = retryLoop rest fuel ∧
      retryLoop (.estFail :: rest) fuel = .error .watchFailed := by
  constructor
  · simp [retryLoop, runAttempt, runEvents, stopsRetry]
  · simp [retryLoop, runAttempt, stopsRetry]

/-- C7: an execution in which the watch delivers a delete event for the
still-pending record fails with the `tokenDeleted` (session expired) error:
the notify callback classifies it non-retryable, so the loop terminates at
once regardless of remaining attempts and budget, and `OIDCStateToEmail`
returns the error instead of fetching identity attributes. -/
theorem C7_delete_expires (a : WatchAttempt) (rest : List WatchAttempt) (fuel : Nat)
    (userInfo : String → Except String String)
    (h : runAttempt a = .error .tokenDeleted) :
    retryLoop (a :: rest) fuel = .error .tokenDeleted ∧
      oidcStateToEmail (a :: rest) fuel userInfo = .error (.watch .tokenDeleted) := by
  have h1 : retryLoop (a :: rest) fuel = .error .tokenDeleted := by
    simp [retryLoop, h, stopsRetry]
  refine ⟨h1, ?_⟩
  simp [oidcStateToEmail, h1]

/-- Witness for C7: a delete event on the first established watch. -/
theorem C7_delete_expires_witness :
    retryLoop [WatchAttempt.events [.deleteEvent]] 3 = .error .tokenDeleted ∧
      oidcStateToEmail [WatchAttempt.events [.deleteEvent]] 3 (fun _ => .ok "user") =
        .error (.watch .tokenDeleted) :=
  C7_delete_expires (.events [.deleteEvent]) [] 3 (fun _ => .ok "user") rfl

/-- C10: when the watch event stream ends after delivering only still-pending
updates (no token, no failure flag, no error, no delete), the retry body
returns success with the access token still empty, and `OIDCStateToEmail`
proceeds to the identity-attribute fetch with an empty bearer credential
rather than failing or retrying the watch. -/
theorem C10_empty_stream (nc : String) (rest : List WatchAttempt) (fuel : Nat)
    (userInfo : String → Except String String) :
    retryLoop (.events [.update ⟨nc, "", false⟩] :: rest) fuel = .ok "" ∧
      oidcStateToEmail (.events [.update ⟨nc, "", false⟩] :: rest) fuel userInfo =
        finishIdentity userInfo "" := by
  have h1 : retryLoop (.events [.update ⟨nc, "", false⟩] :: rest) fuel = .ok "" := by
    simp [retryLoop, runAttempt, runEvents]
  refine ⟨h1, ?_⟩
  simp [oidcStateToEmail, h1]

/-- C2: the prelude of `handleOIDCExchange` evaluated at the failing input —
a callback request whose `code` query parameter is absent — panics (indexing
`Query()["code"][0]` on an empty slice) and writes no response, instead of
answering 400; the 400 branch with no session mutation is reached only when
the parameter is present but empty. -/
theorem C2_missing_param_panics (exchange : String → Except String (String × String))
    (fault : StoreFault) (st : Option SessionInfo) :
    handlePrelude true [("state", "abc123")] = .panicked ∧
      handleOIDCExchange true exchange fault [("state", "abc123")] st = (st, [], []) ∧
      handlePrelude true [("code", ""), ("state", "abc123")] = .badRequest ∧
      handleOIDCExchange true exchange fault [("code", ""), ("state", "abc123")] st =
        (st, [.badRequestResp], []) := by
  refine ⟨rfl, rfl, rfl, rfl⟩

/-- C6: every callback that reaches the exchange-and-commit stage produces
exactly one network response: the generic 401 for any exchange failure or
for a nonce mismatch found inside a committed transaction, the generic 500
when the store is unavailable (or holds no record) during the transaction,
and the generic success body when exchange, nonce check and commit all
succeed. -/
theorem C6_single_response (exchange : String → Except String (String × String))
    (fault : StoreFault) (authCode state : String) (st : Option SessionInfo) :
    ((exchangeStage exchange fault authCode state st).2.1).length = 1 ∧
      (∀ e, exchange authCode = .error e →
        (exchangeStage exchange fault authCode state st).2.1 = [.unauthorized state]) ∧
      (∀ nonce accessToken si, exchange authCode = .ok (nonce, accessToken) →
        fault = .ok → st = some si → nonce ≠ si.nonce →
        (exchangeStage exchange fault authCode state st).2.1 = [.unauthorized state]) ∧
      (∀ nonce accessToken, exchange authCode = .ok (nonce, accessToken) →
        fault = .unavailable →
        (exchangeStage exchange fault authCode state st).2.1 = [.internalError state]) ∧
      (∀ nonce accessToken, exchange authCode = .ok (nonce, accessToken) →
        fault = .ok → st = none →
        (exchangeStage exchange fault authCode state st).2.1 = [.internalError state]) ∧
      (∀ nonce accessToken si, exchange authCode = .ok (nonce, accessToken) →
        fault = .ok → st = some si → nonce = si.nonce →
        (exchangeStage exchange fault authCode state st).2.1 = [.successResp]) := by
  refine ⟨rfl, ?_, ?_, ?_, ?_, ?_⟩
  · intro e he
    rcases fault with _ | _ <;> rcases st with _ | si <;>
      simp [exchangeStage, handleOIDCExchangeInternal, stmUpdate, exchangeMutator, he]
  · intro nonce accessToken si he hf hst hn
    subst hf
    subst hst
    simp [exchangeStage, handleOIDCExchangeInternal, stmUpdate, exchangeMutator, he, hn]
  · intro nonce accessToken he hf
    subst hf
    simp [exchangeStage, handleOIDCExchangeInternal, stmUpdate, he]
  · intro nonce accessToken he hf hst
    subst hf
    subst hst
    simp [exchangeStage, handleOIDCExchangeInternal, stmUpdate, he]
  · intro nonce accessToken si he hf hst hn
    subst hf
    subst hst
    simp [exchangeStage, handleOIDCExchangeInternal, stmUpdate, exchangeMutator, he, hn]

/-- Witness for C6: a fully successful exchange against a pending record with
a matching nonce produces exactly the generic success response. -/
theorem C6_single_response_witness :
    (exchangeStage (fun _ => .ok ("n", "t")) .ok "c" "s" (some ⟨"n", "", false⟩)).2.1 =
      [.successResp] :=
  (C6_single_response (fun _ => .ok ("n", "t")) .ok "c" "s" (some ⟨"n", "", false⟩)).2.2.2.2.2
    "n" "t" ⟨"n", "", false⟩ rfl rfl rfl rfl

/-- C9: when both a conversion error and a store error are set — the exchange
failed and the transaction either found the store unavailable or found no
record to update — the handler sends the generic 401 authorization-failed
response (the conversion error takes precedence over the 500 branch), while
both errors are independently written to the log sink. -/
theorem C9_conversion_precedence (e state authCode : String) (st : Option SessionInfo) :
    exchangeStage (fun _ => .error e) .unavailable authCode state st =
      (st, [.unauthorized state],
        [.infoEnter state, .infoExit state "",
         .convErrLog state e, .etcdErrLog state "etcd is unavailable"]) ∧
      exchangeStage (fun _ => .error e) .ok authCode state none =
        (none, [.unauthorized state],
          [.infoEnter state, .infoExit state "",
           .convErrLog state e, .etcdErrLog state "key not found"]) := by
  refine ⟨rfl, rfl⟩

/-- C8: the log sink receives the session token (and the nonce on the success
path) but neither the access token nor the authorization code: two callback
executions that differ only in the authorization code presented and in the
access token returned by the exchange (same error status, same nonce)
produce identical log traces, and each trace carries the session token via
its entry log line. -/
theorem C8_no_secret_logs (exch1 exch2 : String → Except String (String × String))
    (fault : StoreFault) (code1 code2 state : String) (st : Option SessionInfo)
    (h : sameVisibleExch (exch1 code1) (exch2 code2)) :
    (exchangeStage exch1 fault code1 state st).2.2 =
      (exchangeStage exch2 fault code2 state st).2.2 ∧
      LogLine.infoEnter state ∈ (exchangeStage exch1 fault code1 state st).2.2 := by
  cases hx : exch1 code1 with
  | error e1 =>
    cases hy : exch2 code2 with
    | error e2 =>
      rw [hx, hy] at h
      simp only [sameVisibleExch] at h
      subst h
      constructor
      · simp only [exchangeStage, handleOIDCExchangeInternal, hx, hy]
      · rcases fault with _ | _ <;> rcases st with _ | si <;>
          simp [exchangeStage, handleOIDCExchangeInternal, stmUpdate, exchangeMutator, hx]
    | ok p2 =>
      rw [hx, hy] at h
      rcases p2 with ⟨n2, a2⟩
      simp only [sameVisibleExch] at h
  | ok p1 =>
    rcases p1 with ⟨n1, a1⟩
    cases hy : exch2 code2 with
    | error e2 =>
      rw [hx, hy] at h
      simp only [sameVisibleExch] at h
    | ok p2 =>
      rcases p2 with ⟨n2, a2⟩
      rw [hx, hy] at h
      simp only [sameVisibleExch] at h
      subst h
      constructor
      · rcases fault with _ | _ <;> rcases st with _ | si <;>
          simp only [exchangeStage, handleOIDCExchangeInternal, stmUpdate, exchangeMutator,
            hx, hy] <;>
          by_cases hn : n1 = si.nonce <;> simp [hn]
      · rcases fault with _ | _ <;> rcases st with _ | si <;>
          simp [exchangeStage, handleOIDCExchangeInternal, stmUpdate, exchangeMutator, hx]

/-- Witness for C8: two runs whose exchanges return different access tokens
under the same nonce leave identical logs, which include the entry line for
the session token. -/
theorem C8_no_secret_logs_witness :
    (exchangeStage (fun _ => .ok ("n", "tok1")) .ok "c1" "s"
        (some ⟨"n", "", false⟩)).2.2 =
      (exchangeStage (fun _ => .ok ("n", "tok2")) .ok "c2" "s"
        (some ⟨"n", "", false⟩)).2.2 ∧
      LogLine.infoEnter "s" ∈ (exchangeStage (fun _ => .ok ("n", "tok1")) .ok "c1" "s"
        (some ⟨"n", "", false⟩)).2.2 :=
  C8_no_secret_logs (fun _ => .ok ("n", "tok1")) (fun _ => .ok ("n", "tok2")) .ok
    "c1" "c2" "s" (some ⟨"n", "", false⟩) rfl
